import Mathlib

/-
Verification development for the Pinguclaw OneBot transport client and CQ
message codec.

The definitions below are a shallow embedding of the TypeScript sources:
  * src/libs/cq/render.ts        (buildOutboundSegments)
  * src/libs/cq/*                (toPlainText and friends, inbound CQ parsing)
  * src/libs/onebot/util.ts      (clampMs, isApiResponsePacket, isEventPacket)
  * the OneBot WebSocket client  (callAction, handleInbound, disconnect,
                                  scheduleReconnect, rejectAllPending, ...)

JavaScript strings are modelled as Lean `String`/`List Char`; JS objects used
as string-keyed dictionaries are modelled as insertion-ordered association
lists (`List (String × _)`) where assignment to an existing key overwrites the
value in place, as JS property assignment does.  JS numbers that the claims
touch are integers in every reachable case and are modelled as `Nat`/`Int`.
-/

set_option autoImplicit false

namespace Pinguclaw

/-! ## Decimal rendering of numbers (JS template-literal `${n}` on a Nat) -/

/-- Character for a single decimal digit, as produced by JS number printing. -/
def decDigitChar (d : Nat) : Char := Char.ofNat (48 + d)

/-- Fuelled most-significant-first decimal digit accumulator.  With fuel
`n + 1` this fully renders `n`. -/
def decDigitsGo : Nat → Nat → List Char → List Char
  | 0, _, acc => acc
  | fuel + 1, n, acc =>
    if n < 10 then decDigitChar n :: acc
    else decDigitsGo fuel (n / 10) (decDigitChar (n % 10) :: acc)

/-- Decimal string of a natural number, as JS `${n}` produces for integer
values. -/
def natDec (n : Nat) : String := ⟨decDigitsGo (n + 1) n []⟩

/-- Decimal valuation of a digit string (verification artifact used to invert
`natDec`). -/
def decVal (l : List Char) : Nat :=
  l.foldl (fun a c => a * 10 + (c.toNat - 48)) 0

/-! ## JS string helpers -/

/-- Whitespace as recognised by JS `String.prototype.trim` and `\s`
(restricted to the code points that can actually occur in this code base). -/
def isJsSpace (c : Char) : Bool :=
  c = ' ' || c = '\t' || c = '\n' || c = '\r' || c = '\x0b' || c = '\x0c'

/-- JS `String.prototype.trim`. -/
def jsTrimList (cs : List Char) : List Char :=
  ((cs.dropWhile isJsSpace).reverse.dropWhile isJsSpace).reverse

/-- JS `s.trim()` on a `String`. -/
def jsTrim (s : String) : String := ⟨jsTrimList s.data⟩

/-- JS `replace(/\s+/g, " ")`: each maximal whitespace run becomes one
space.  The flag records whether we are inside a run. -/
def collapseWsGo : Bool → List Char → List Char
  | _, [] => []
  | inRun, c :: cs =>
    if isJsSpace c then
      if inRun then collapseWsGo true cs else ' ' :: collapseWsGo true cs
    else c :: collapseWsGo false cs

/-- JS `s.replace(/\s+/g, " ")`. -/
def collapseWs (s : String) : String := ⟨collapseWsGo false s.data⟩

/-- JS `value.replace(/&amp;/g, "&")`, scanning left to right. -/
def replaceAmp : List Char → List Char
  | '&' :: 'a' :: 'm' :: 'p' :: ';' :: rest => '&' :: replaceAmp rest
  | c :: rest => c :: replaceAmp rest
  | [] => []

/-- JS `s.split(",")`: always returns at least one (possibly empty) group. -/
def splitOnComma : List Char → List (List Char)
  | [] => [[]]
  | ',' :: rest => [] :: splitOnComma rest
  | c :: rest =>
    match splitOnComma rest with
    | g :: gs => (c :: g) :: gs
    | [] => [[c]]

/-- JS `parts.join(",")`. -/
def joinComma : List (List Char) → List Char
  | [] => []
  | [g] => g
  | g :: gs => g ++ ',' :: joinComma gs

/-! ## Insertion-ordered string-keyed maps (JS objects / `Map`) -/

/-- JS `obj[k] = v` / `Map.set`: overwrite in place if the key exists,
otherwise append. -/
def mapSet {α : Type} (m : List (String × α)) (k : String) (v : α) :
    List (String × α) :=
  if (m.lookup k).isSome then
    m.map (fun kv => if kv.1 = k then (k, v) else kv)
  else
    m ++ [(k, v)]

/-- JS `Map.delete` / removal of a key. -/
def mapDelete {α : Type} (m : List (String × α)) (k : String) :
    List (String × α) :=
  m.filter (fun kv => kv.1 != k)

/-- JS object spread `{ ...base, ...entries }` restricted to the pattern used
in the source: fold the entries into `base` by assignment. -/
def objSpread {α : Type} (base : List (String × α)) (entries : List (String × α)) :
    List (String × α) :=
  entries.foldl (fun m kv => mapSet m kv.1 kv.2) base

/-! ## CQ message codec (src/libs/cq) -/

/-- `CQSegmentNormalized` from src/libs/cq/types.ts.  All data values that the
codec itself ever writes are strings, so the data map is modelled as a
string-to-string association list. -/
structure CQSegment where
  type : String
  data : List (String × String)
  raw : Option String := none
deriving DecidableEq, Repr

/-- `CQParseResult` from src/libs/cq/types.ts. -/
structure CQParseResult where
  segments : List CQSegment
deriving DecidableEq, Repr

/-- `CQBuildPayload` from src/libs/cq/types.ts (`text?`, `replyToId?` which may
be null, `mentions?`). -/
structure CQBuildPayload where
  text : Option String := none
  replyToId : Option String := none
  mentions : Option (List String) := none

/-- One element of the already-structured array input accepted by
`parseInboundCQ` (`{type?, data?}`; an absent or non-object `data` acts as
`{}`). -/
structure CQArrayItem where
  type : Option String := none
  data : Option (List (String × String)) := none

/-- The known segment type check shared by `parseCQBody` and
`parseArrayInput`. -/
def isKnownCQType (t : String) : Bool :=
  t = "text" || t = "at" || t = "reply" || t = "image" || t = "file" || t = "record"

/-- One iteration of the attribute loop of `parseCQBody`: skip a chunk whose
`indexOf("=")` is `-1` or `0`, otherwise assign `data[key] = value` with both
halves trimmed and `&amp;` unescaped in the value. -/
def parseAttrStep (data : List (String × String)) (kv : List Char) :
    List (String × String) :=
  match kv.findIdx? (fun c => c = '=') with
  | none => data
  | some idx =>
    if idx = 0 then data
    else
      mapSet data ⟨jsTrimList (kv.take idx)⟩
        ⟨replaceAmp (jsTrimList (kv.drop (idx + 1)))⟩

/-- The attribute loop of `parseCQBody` over all `k=v` chunks. -/
def parseAttrs (chunks : List (List Char)) : List (String × String) :=
  chunks.foldl parseAttrStep []

/-- The declared type of a CQ token body: the first comma-chunk, trimmed,
with an empty result falling back to "unknown" (`typePart?.trim() ||
"unknown"`). -/
def cqDeclaredType (body : List Char) : String :=
  let type0 : String := ⟨jsTrimList ((splitOnComma body).headD [])⟩
  if type0 = "" then "unknown" else type0

/-- The attribute map of a CQ token body: the chunks after the type, parsed as
`k=v` pairs; the loop is skipped wholesale when rejoining them gives the empty
string. -/
def cqAttrData (body : List Char) : List (String × String) :=
  let rest := (splitOnComma body).tail
  if joinComma rest = [] then [] else parseAttrs rest

/-- `parseCQBody` from the inbound CQ parser: split the bracket body on commas,
the first chunk (trimmed, defaulting to "unknown" when empty) is the type, the
remaining chunks are `k=v` attributes; unknown types are renormalised to an
`unknown` segment that records the original type under the `cqType` key
(spread after it, so a literal `cqType` attribute overwrites it). -/
def parseCQBody (body : List Char) : CQSegment :=
  let raw : String := "[CQ:" ++ (⟨body⟩ : String) ++ "]"
  if isKnownCQType (cqDeclaredType body) then
    ⟨cqDeclaredType body, cqAttrData body, some raw⟩
  else
    ⟨"unknown", objSpread [("cqType", cqDeclaredType body)] (cqAttrData body), some raw⟩

/-- Attempt of the regex `/\[CQ:([^\[\]]+)\]/` anchored at the head of the
input: a literal `[CQ:`, then a nonempty maximal run of non-bracket
characters, then `]`.  Returns the captured body and the remaining input. -/
def matchCQAt (cs : List Char) : Option (List Char × List Char) :=
  match cs with
  | '[' :: 'C' :: 'Q' :: ':' :: rest =>
    let body := rest.takeWhile (fun c => c ≠ '[' && c ≠ ']')
    let after := rest.dropWhile (fun c => c ≠ '[' && c ≠ ']')
    if body = [] then none
    else
      match after with
      | ']' :: tail => some (body, tail)
      | _ => none
  | _ => none

/-- Leftmost match of the CQ-token regex: returns the plain text before the
match, the captured body, and the input after the match. -/
def findCQ : List Char → Option (List Char × List Char × List Char)
  | [] => none
  | c :: cs =>
    match matchCQAt (c :: cs) with
    | some (body, tail) => some ([], body, tail)
    | none =>
      match findCQ cs with
      | some (pre, body, tail) => some (c :: pre, body, tail)
      | none => none

/-- A plain text segment as pushed by `parseStringInput`. -/
def textSeg (cs : List Char) : CQSegment := ⟨"text", [("text", ⟨cs⟩)], none⟩

/-- The scanning loop of `parseStringInput`.  Fuel `input.length + 1` is
always sufficient because every match consumes at least six characters. -/
def parseStringGo : Nat → List Char → List CQSegment
  | 0, _ => []
  | fuel + 1, cs =>
    match findCQ cs with
    | none => if cs = [] then [] else [textSeg cs]
    | some (pre, body, tail) =>
      (if pre = [] then [] else [textSeg pre]) ++
        parseCQBody body :: parseStringGo fuel tail

/-- `parseStringInput`: scan for CQ tokens; interleaved plain runs become text
segments; if nothing at all was produced (empty input) a single verbatim text
segment is pushed. -/
def parseStringInput (s : String) : List CQSegment :=
  match parseStringGo (s.data.length + 1) s.data with
  | [] => [textSeg s.data]
  | segs => segs

/-- `parseArrayInput`: each element supplies its own type and data; non-string
types become "unknown" and unknown types are renormalised with `cqType`. -/
def parseArrayInput (items : List CQArrayItem) : List CQSegment :=
  items.map (fun item =>
    let type := item.type.getD "unknown"
    let data := item.data.getD []
    if isKnownCQType type then ⟨type, data, none⟩
    else ⟨"unknown", objSpread [("cqType", type)] data, none⟩)

/-- The three possible inputs of `parseInboundCQ`
(`string | unknown[] | undefined | null`). -/
inductive CQInput where
  | str (s : String)
  | arr (items : List CQArrayItem)
  | nullish

/-- `parseInboundCQ` from the inbound CQ parser. -/
def parseInboundCQ : CQInput → CQParseResult
  | .str s => ⟨parseStringInput s⟩
  | .arr items => ⟨parseArrayInput items⟩
  | .nullish => ⟨[]⟩

/-- `buildOutboundSegments` from src/libs/cq/render.ts: an optional leading
reply segment, then per mention an `at` segment followed by a single-space
text segment, then the trimmed body text if nonempty. -/
def buildOutboundSegments (payload : CQBuildPayload) : List CQSegment :=
  let replySegs : List CQSegment :=
    match payload.replyToId with
    | some r => if r = "" then [] else [⟨"reply", [("id", r)], none⟩]
    | none => []
  let mentionSegs : List CQSegment :=
    (payload.mentions.getD []).foldr
      (fun m acc =>
        let qq := jsTrim m
        if qq = "" then acc
        else ⟨"at", [("qq", qq)], none⟩ :: ⟨"text", [("text", " ")], none⟩ :: acc)
      []
  let textSegs : List CQSegment :=
    match payload.text with
    | none => []
    | some t =>
      let tt := jsTrim t
      if tt = "" then [] else [⟨"text", [("text", tt)], none⟩]
  replySegs ++ mentionSegs ++ textSegs

/-- `toPlainText`: fold the segments into display chunks (`text` verbatim,
`at` as `@id`, media as fixed placeholders, everything else dropped), then
collapse whitespace runs and trim. -/
def toPlainText (result : CQParseResult) : String :=
  let out : List String :=
    result.segments.foldl
      (fun acc seg =>
        if seg.type = "text" then acc ++ [(seg.data.lookup "text").getD ""]
        else if seg.type = "at" then
          let qq := jsTrim ((seg.data.lookup "qq").getD "")
          acc ++ [if qq = "" then "@" else "@" ++ qq]
        else if seg.type = "image" then acc ++ ["[image]"]
        else if seg.type = "file" then acc ++ ["[file]"]
        else if seg.type = "record" then acc ++ ["[audio]"]
        else acc)
      []
  jsTrim (collapseWs (out.foldl (fun a b => a ++ b) ""))

/-! ## OneBot protocol helpers (src/libs/onebot/util.ts) -/

/-- Parsed inbound JSON, restricted to what the dispatch logic inspects.
Numbers occurring in the protocol's discriminating fields are integers. -/
inductive JVal where
  | str (s : String)
  | num (n : Int)
  | boolean (b : Bool)
  | null
  | arr (xs : List JVal)
  | obj (fields : List (String × JVal))

/-- JS property read `value[k]` on a parsed JSON value.  `JSON.parse` keeps
the last duplicate key, so parsed objects have unique keys and first-match
lookup is faithful. -/
def getField : JVal → String → Option JVal
  | .obj fields, k => fields.lookup k
  | _, _ => none

/-- `isRecord`: `Boolean(value) && typeof value === "object"` (true for
objects and arrays, false for null and primitives). -/
def isRecordJ : JVal → Bool
  | .obj _ => true
  | .arr _ => true
  | _ => false

/-- Whether an optional field holds a string (`typeof v === "string"`). -/
def isStrField : Option JVal → Bool
  | some (.str _) => true
  | _ => false

/-- Whether an optional field holds a number (`typeof v === "number"`). -/
def isNumField : Option JVal → Bool
  | some (.num _) => true
  | _ => false

/-- `isApiResponsePacket`: a record with a string `status` and a numeric
`retcode`. -/
def isApiResponsePacket (v : JVal) : Bool :=
  isRecordJ v && isStrField (getField v "status") && isNumField (getField v "retcode")

/-- `isEventPacket`: a record with a string `post_type`. -/
def isEventPacket (v : JVal) : Bool :=
  isRecordJ v && isStrField (getField v "post_type")

/-- `clampMs(value, fallback)`: fallback for negative (or non-finite, not
representable here) values, otherwise `Math.floor` — the identity on the
integer inputs this client produces. -/
def clampMs (value : Int) (fallback : Nat) : Nat :=
  if value < 0 then fallback else value.toNat

/-! ## OneBot WebSocket client (shallow embedding of OneBotWsClient)

The client's mutable fields become a `Client` record.  Each private method or
socket callback of the source becomes a function `Client → Client × List
Effect`; the `Effect` list records, in order, the listener emissions, the
promise settlements and the frames written to the socket that the method
performs.  `setTimeout` handles are modelled by `TimerInfo` values carrying
the data captured by the timeout closure; an armed timer is one present in
`Client.timers`, and `clearTimeout` removes it.  `Date.now()` and the random
reconnect jitter enter as explicit parameters. -/

/-- `OneBotClientState`. -/
inductive ConnState where
  | idle | connecting | open | closing | closed | reconnecting
deriving DecidableEq, Repr

/-- The `ws.readyState` values of the underlying socket. -/
inductive WsReady where
  | connecting | open | closing | closed
deriving DecidableEq, Repr

/-- The client options after constructor normalisation (all numeric options
resolved to concrete values; `heartbeatTimeoutMs` stays optional). -/
structure Options where
  reconnect : Bool
  reconnectBaseDelayMs : Nat
  reconnectMaxAttempts : Nat
  reconnectMaxDelayMs : Nat
  requestTimeoutMs : Nat
  heartbeatTimeoutMs : Option Int := none
deriving DecidableEq, Repr

/-- One entry of the pending-request table (`PendingRequest`): the action
name, the effective timeout, the identity of the promise the continuations
settle, and the armed expiry timer. -/
structure Pending where
  reqId : Nat
  action : String
  timeoutMs : Nat
  timerId : Nat
deriving DecidableEq, Repr

/-- The data captured by one `setTimeout` closure created in `callAction`. -/
structure TimerInfo where
  id : Nat
  echo : String
  reqId : Nat
  action : String
  timeoutMs : Nat
deriving DecidableEq, Repr

/-- An outbound `{action, params, echo}` frame. -/
structure ActionFrame where
  action : String
  params : Option JVal
  echo : String

/-- Observable actions a client method performs, in program order. -/
inductive Effect where
  | emitOpen
  | emitClose (code : Nat) (reason : String)
  | emitReconnecting (attempt : Nat) (delayMs : Nat) (reason : String)
  | emitError (message : String)
  | emitRawIn (payload : JVal)
  | emitRawOut (frame : ActionFrame)
  | emitResponse (payload : JVal)
  | emitEvent (payload : JVal)
  | emitMessage (payload : JVal)
  | emitNotice (payload : JVal)
  | emitRequest (payload : JVal)
  | emitMeta (payload : JVal)
  | emitTimeout (action : String) (echo : String) (timeoutMs : Nat)
  | resolveReq (reqId : Nat) (payload : JVal)
  | rejectReq (reqId : Nat) (message : String)
  | throwErr (message : String)
  | sendFrame (frame : ActionFrame)

/-- Whether an effect settles (resolves or rejects) the promise of the given
request. -/
def isSettleFor (reqId : Nat) : Effect → Bool
  | .resolveReq q _ => q == reqId
  | .rejectReq q _ => q == reqId
  | _ => false

/-- Whether an effect is a timeout-event emission. -/
def isTimeoutEff : Effect → Bool
  | .emitTimeout _ _ _ => true
  | _ => false

/-- Whether an effect is a synchronous throw out of the method. -/
def isThrowEff : Effect → Bool
  | .throwErr _ => true
  | _ => false

/-- Whether an effect writes a frame to the socket. -/
def isSendEff : Effect → Bool
  | .sendFrame _ => true
  | _ => false

/-- Whether an effect is a transport-error emission. -/
def isErrorEff : Effect → Bool
  | .emitError _ => true
  | _ => false

/-- The client's mutable state.  `nextTimerId`/`nextReqId` are bookkeeping
for the identities of timers and promises (fresh handles in JS). -/
structure Client where
  opts : Options
  ws : Option WsReady
  state : ConnState
  manuallyClosed : Bool
  reconnectAttempt : Nat
  reconnectTimer : Option Nat
  lastInboundAt : Nat
  heartbeatTimer : Bool
  echoSeq : Nat
  pending : List (String × Pending)
  timers : List TimerInfo
  nextTimerId : Nat
  nextReqId : Nat

/-- A freshly constructed client (field initialisers of the class). -/
def initClient (opts : Options) : Client :=
  ⟨opts, none, .idle, false, 0, none, 0, false, 0, [], [], 0, 0⟩

/-- `generateEcho` after the `echoSeq += 1` increment: the token is
`ob_${Date.now()}_${echoSeq}`. -/
def generateEcho (now seqAfter : Nat) : String :=
  "ob_" ++ natDec now ++ "_" ++ natDec seqAfter

/-- The timeout error message of `callAction`. -/
def timeoutErrMsg (action : String) (timeoutMs : Nat) : String :=
  "OneBot action timeout: " ++ action ++ " (" ++ natDec timeoutMs ++ "ms)"

/-- `callAction(action, params, {timeoutMs?, echo?})`.  `now` supplies
`Date.now()` for token generation and `sendOk` tells whether `ws.send`
succeeds (false models a synchronous send exception). -/
def callAction (c : Client) (action : String) (params : Option JVal)
    (timeoutOpt : Option Int) (echoOpt : Option String) (now : Nat)
    (sendOk : Bool) : Client × List Effect :=
  if c.ws = some WsReady.open ∧ c.state = ConnState.open then
    let timeoutMs :=
      clampMs (timeoutOpt.getD (Int.ofNat c.opts.requestTimeoutMs)) c.opts.requestTimeoutMs
    let seqAfter := match echoOpt with | some _ => c.echoSeq | none => c.echoSeq + 1
    let echo := match echoOpt with | some e => e | none => generateEcho now (c.echoSeq + 1)
    let frame : ActionFrame := ⟨action, params, echo⟩
    let tid := c.nextTimerId
    let rid := c.nextReqId
    let c1 : Client :=
      { c with
        echoSeq := seqAfter
        timers := c.timers ++ [⟨tid, echo, rid, action, timeoutMs⟩]
        pending := mapSet c.pending echo ⟨rid, action, timeoutMs, tid⟩
        nextTimerId := tid + 1
        nextReqId := rid + 1 }
    if sendOk then
      (c1, [.emitRawOut frame, .sendFrame frame])
    else
      -- the catch block: the entry just set is looked up, its timer cleared,
      -- the entry deleted and the new promise rejected
      ({ c1 with
          timers := c1.timers.filter (fun t => t.id != tid)
          pending := mapDelete c1.pending echo },
       [.emitRawOut frame, .rejectReq rid ("Failed to send action: " ++ action)])
  else
    (c, [.throwErr "WebSocket is not connected"])

/-- The `setTimeout` callback armed by `callAction`, running when the timer
fires: delete whatever the table holds under the captured echo, emit the
timeout event, reject the captured promise. -/
def fireRequestTimer (c : Client) (t : TimerInfo) : Client × List Effect :=
  ({ c with
      timers := c.timers.filter (fun ti => ti.id != t.id)
      pending := mapDelete c.pending t.echo },
   [.emitTimeout t.action t.echo t.timeoutMs,
    .rejectReq t.reqId (timeoutErrMsg t.action t.timeoutMs)])

/-- `handleInbound` on an already-parsed JSON payload (text decoding and the
JSON.parse failure path precede this and touch no client state). -/
def handleInbound (c : Client) (payload : JVal) : Client × List Effect :=
  if isApiResponsePacket payload then
    let effs := [Effect.emitRawIn payload, Effect.emitResponse payload]
    match getField payload "echo" with
    | some (.str e) =>
      match c.pending.lookup e with
      | some pr =>
        ({ c with
            timers := c.timers.filter (fun ti => ti.id != pr.timerId)
            pending := mapDelete c.pending e },
         effs ++ [.resolveReq pr.reqId payload])
      | none => (c, effs)
    | _ => (c, effs)
  else if isEventPacket payload then
    let effs := [Effect.emitRawIn payload, Effect.emitEvent payload]
    match getField payload "post_type" with
    | some (.str "message") => (c, effs ++ [.emitMessage payload])
    | some (.str "notice") => (c, effs ++ [.emitNotice payload])
    | some (.str "request") => (c, effs ++ [.emitRequest payload])
    | some (.str "meta_event") => (c, effs ++ [.emitMeta payload])
    | _ => (c, effs)
  else
    (c, [.emitRawIn payload, .emitError "Received unsupported OneBot payload"])

/-- `rejectAllPending(error)`: clear every pending entry's timer, reject its
promise with the given error, and empty the table. -/
def rejectAllPending (c : Client) (errMsg : String) : Client × List Effect :=
  let cleared := c.pending.map (fun kv => kv.2.timerId)
  ({ c with
      pending := []
      timers := c.timers.filter (fun ti => !(cleared.contains ti.id)) },
   c.pending.map (fun kv => .rejectReq kv.2.reqId errMsg))

/-- The terminal error message of `scheduleReconnect`. -/
def exhaustedMsg (maxAttempts : Nat) (reason : String) : String :=
  "Reconnect exhausted after " ++ natDec maxAttempts ++ " attempts (" ++ reason ++ ")"

/-- `scheduleReconnect(reason)`.  `jitter` supplies
`Math.floor(Math.random() * 300)`, so `jitter < 300` at every real call.  The
armed timer stores the attempt number its callback will commit. -/
def scheduleReconnect (c : Client) (reason : String) (jitter : Nat) :
    Client × List Effect :=
  if c.reconnectTimer.isSome then (c, [])
  else
    let nextAttempt := c.reconnectAttempt + 1
    if c.opts.reconnectMaxAttempts < nextAttempt then
      (c, [.emitError (exhaustedMsg c.opts.reconnectMaxAttempts reason)])
    else
      let exponentialDelay :=
        min c.opts.reconnectMaxDelayMs
          (c.opts.reconnectBaseDelayMs * 2 ^ (nextAttempt - 1))
      let delayMs := exponentialDelay + jitter
      ({ c with state := .reconnecting, reconnectTimer := some nextAttempt },
       [.emitReconnecting nextAttempt delayMs reason])

/-- `handleSocketClose(event)`: stop the heartbeat, drop the socket, enter
`closed`, emit the close event, fail all pending requests, and — unless the
close was deliberate or reconnection is disabled — schedule a reconnect. -/
def handleSocketClose (c : Client) (code : Nat) (reason : String) (jitter : Nat) :
    Client × List Effect :=
  let c0 : Client := { c with heartbeatTimer := false, ws := none, state := .closed }
  let closeMsg := "WebSocket closed (" ++ natDec code ++ " " ++ reason ++ ")"
  let r1 := rejectAllPending c0 closeMsg
  let effs := Effect.emitClose code reason :: r1.2
  if c.manuallyClosed then (r1.1, effs)
  else if !c.opts.reconnect then (r1.1, effs)
  else
    let r2 := scheduleReconnect r1.1 ("close:" ++ natDec code) jitter
    (r2.1, effs ++ r2.2)

/-- `disconnect(code, reason)`.  When a live socket exists, `ws.close` makes
the socket's close event run `handleSocketClose` before the awaited promise
resolves; `closeThrew` models `ws.close` raising synchronously, in which case
the wait resolves immediately without that event. -/
def disconnect (c : Client) (code : Nat) (reason : String) (jitter : Nat)
    (closeThrew : Bool) : Client × List Effect :=
  let c0 : Client :=
    { c with manuallyClosed := true, reconnectTimer := none,
             heartbeatTimer := false, state := .closing }
  match c0.ws with
  | none =>
    let r := rejectAllPending { c0 with state := .closed } "Disconnected"
    (r.1, r.2)
  | some WsReady.closed =>
    let r := rejectAllPending { c0 with ws := none, state := .closed } "Disconnected"
    (r.1, r.2)
  | some _ =>
    if closeThrew then
      let r := rejectAllPending { c0 with state := .closed } "Disconnected"
      (r.1, r.2)
    else
      let r1 := handleSocketClose c0 code reason jitter
      let r2 := rejectAllPending { r1.1 with state := .closed } "Disconnected"
      (r2.1, r1.2 ++ r2.2)

/-- `connect()` up to the creation of the socket, in the case where it
proceeds (state not `open`, no connect already in flight): reset
`manuallyClosed`, clear any reconnect timer, enter `connecting`, open a
socket. -/
def connectStart (c : Client) : Client :=
  { c with manuallyClosed := false, reconnectTimer := none,
           state := .connecting, ws := some .connecting }

/-- Whether `startHeartbeatMonitor` arms the periodic check: only when a
positive heartbeat timeout is configured (`!timeoutMs || timeoutMs <= 0`
returns early). -/
def heartbeatArmed (o : Options) : Bool :=
  match o.heartbeatTimeoutMs with
  | none => false
  | some t => if t ≤ 0 then false else true

/-- `startHeartbeatMonitor`: stop any previous monitor; arm the interval only
when a positive heartbeat timeout is configured. -/
def startHeartbeatMonitor (c : Client) : Client :=
  { c with heartbeatTimer := heartbeatArmed c.opts }

/-- The socket `open` handler: reset the attempt counter, stamp
`lastInboundAt`, start the heartbeat monitor, enter `open`, emit `open`. -/
def onSocketOpen (c : Client) (now : Nat) : Client × List Effect :=
  let c1 := startHeartbeatMonitor { c with reconnectAttempt := 0, lastInboundAt := now }
  ({ c1 with state := .open, ws := some .open }, [.emitOpen])

/-- The reconnect timer callback: null the timer handle, commit the attempt
number the timer was armed with, then call `connect()`. -/
def reconnectTimerFire (c : Client) : Client :=
  match c.reconnectTimer with
  | none => c
  | some n => connectStart { c with reconnectTimer := none, reconnectAttempt := n }

/-! ## Concrete fixtures used to instantiate the claim theorems -/

/-- Options with the source's default numeric values. -/
def optsW : Options := ⟨true, 1000, 5, 30000, 15000, none⟩

/-- A pending request under echo token "e1". -/
def pendW : Pending := ⟨0, "send_private_msg", 15000, 0⟩

/-- The armed expiry timer of `pendW`. -/
def timerW : TimerInfo := ⟨0, "e1", 0, "send_private_msg", 15000⟩

/-- An open client with one outstanding request. -/
def clientW : Client :=
  ⟨optsW, some .open, .open, false, 0, none, 0, false, 0,
   [("e1", pendW)], [timerW], 1, 1⟩

/-- A well-formed response frame answering echo "e1". -/
def respW : JVal :=
  .obj [("status", .str "ok"), ("retcode", .num 0), ("echo", .str "e1")]

/-! ## Association-list lemmas -/

section MapLemmas

variable {α : Type}

theorem lookup_cons_self (k : String) (v : α) (t : List (String × α)) :
    List.lookup k ((k, v) :: t) = some v := by
  simp [List.lookup]

theorem lookup_cons_ne (k a : String) (h : k ≠ a) (v : α) (t : List (String × α)) :
    List.lookup k ((a, v) :: t) = List.lookup k t := by
  have hb : (k == a) = false := beq_eq_false_iff_ne.mpr h
  simp [List.lookup, hb]

theorem lookup_append_of_none (k : String) (m l : List (String × α))
    (h : m.lookup k = none) : (m ++ l).lookup k = l.lookup k := by
  induction m with
  | nil => simp
  | cons kv t ih =>
    obtain ⟨a, v⟩ := kv
    by_cases hk : k = a
    · subst hk; rw [lookup_cons_self] at h; cases h
    · rw [lookup_cons_ne k a hk] at h
      simpa [lookup_cons_ne k a hk] using ih h

theorem lookup_none_forall (k : String) (m : List (String × α))
    (h : m.lookup k = none) : ∀ kv ∈ m, kv.1 ≠ k := by
  induction m with
  | nil => simp
  | cons kv t ih =>
    obtain ⟨a, v⟩ := kv
    by_cases hk : k = a
    · subst hk; rw [lookup_cons_self] at h; cases h
    · rw [lookup_cons_ne k a hk] at h
      intro kv hkv
      rcases List.mem_cons.mp hkv with h1 | h1
      · subst h1; exact fun he => hk he.symm
      · exact ih h kv h1

theorem lookup_append_left (k : String) (m l : List (String × α)) (w : α)
    (h : m.lookup k = some w) : (m ++ l).lookup k = some w := by
  induction m with
  | nil => simp at h
  | cons kv t ih =>
    obtain ⟨a, b⟩ := kv
    by_cases hka : k = a
    · subst hka
      rw [lookup_cons_self] at h
      simpa [lookup_cons_self] using h
    · rw [lookup_cons_ne k a hka] at h
      simp only [List.cons_append]
      rw [lookup_cons_ne k a hka]
      exact ih h

theorem lookup_overwriteMap_self (m : List (String × α)) (k : String) (v : α)
    (hs : (m.lookup k).isSome) :
    List.lookup k (m.map (fun kv => if kv.1 = k then (k, v) else kv)) = some v := by
  induction m with
  | nil => simp at hs
  | cons kv t ih =>
    obtain ⟨a, b⟩ := kv
    by_cases hk : a = k
    · subst hk; simp [lookup_cons_self]
    · have hk' : k ≠ a := fun he => hk he.symm
      rw [lookup_cons_ne k a hk'] at hs
      simp only [List.map_cons, if_neg hk]
      rw [lookup_cons_ne k a hk']
      exact ih hs

theorem lookup_overwriteMap_ne (m : List (String × α)) (k k' : String) (v : α)
    (h : k' ≠ k) :
    List.lookup k' (m.map (fun kv => if kv.1 = k then (k, v) else kv)) =
      m.lookup k' := by
  induction m with
  | nil => simp
  | cons kv t ih =>
    obtain ⟨a, b⟩ := kv
    by_cases hk : a = k
    · subst hk
      simp [List.map_cons, lookup_cons_ne k' a h, ih]
    · simp only [List.map_cons, if_neg hk]
      by_cases hka : k' = a
      · subst hka; rw [lookup_cons_self, lookup_cons_self]
      · rw [lookup_cons_ne k' a hka, lookup_cons_ne k' a hka]; exact ih

theorem lookup_mapSet_self (m : List (String × α)) (k : String) (v : α) :
    (mapSet m k v).lookup k = some v := by
  unfold mapSet
  cases hmk : m.lookup k with
  | some w =>
    have hs : (m.lookup k).isSome := by rw [hmk]; rfl
    simp only [hmk, Option.isSome_some, if_true]
    exact lookup_overwriteMap_self m k v hs
  | none =>
    simp only [hmk, Option.isSome_none, Bool.false_eq_true, if_false]
    rw [lookup_append_of_none k m _ hmk, lookup_cons_self]

theorem lookup_mapSet_ne (m : List (String × α)) (k k' : String) (v : α)
    (h : k' ≠ k) : (mapSet m k v).lookup k' = m.lookup k' := by
  unfold mapSet
  cases hmk : m.lookup k with
  | some w =>
    simp only [hmk, Option.isSome_some, if_true]
    exact lookup_overwriteMap_ne m k k' v h
  | none =>
    simp only [hmk, Option.isSome_none, Bool.false_eq_true, if_false]
    cases hmk' : m.lookup k' with
    | some w => exact lookup_append_left k' m _ w hmk'
    | none => rw [lookup_append_of_none k' m _ hmk', lookup_cons_ne k' k h, List.lookup_nil]

theorem lookup_mapDelete_self (m : List (String × α)) (k : String) :
    (mapDelete m k).lookup k = none := by
  unfold mapDelete
  induction m with
  | nil => simp
  | cons kv t ih =>
    obtain ⟨a, b⟩ := kv
    by_cases hk : a = k
    · subst hk; simpa using ih
    · have hne : (a != k) = true := bne_iff_ne.mpr hk
      have hk' : k ≠ a := fun he => hk he.symm
      simp only [List.filter_cons, hne, if_true]
      rw [lookup_cons_ne k a hk']
      exact ih

theorem lookup_mapDelete_ne (m : List (String × α)) (k k' : String)
    (h : k' ≠ k) : (mapDelete m k).lookup k' = m.lookup k' := by
  unfold mapDelete
  induction m with
  | nil => simp
  | cons kv t ih =>
    obtain ⟨a, b⟩ := kv
    by_cases hk : a = k
    · subst hk
      have hka : k' ≠ a := h
      simp only [List.filter_cons, bne_self_eq_false, if_false]
      rw [lookup_cons_ne k' a hka]
      exact ih
    · have hne : (a != k) = true := bne_iff_ne.mpr hk
      simp only [List.filter_cons, hne, if_true]
      by_cases hka : k' = a
      · subst hka; rw [lookup_cons_self, lookup_cons_self]
      · rw [lookup_cons_ne k' a hka, lookup_cons_ne k' a hka]; exact ih

theorem lookup_objSpread_of_not_mem (base entries : List (String × α)) (k : String)
    (h : k ∉ entries.map Prod.fst) :
    (objSpread base entries).lookup k = base.lookup k := by
  induction entries generalizing base with
  | nil => rfl
  | cons e es ih =>
    obtain ⟨a, v⟩ := e
    simp only [List.map_cons, List.mem_cons] at h
    push_neg at h
    show (objSpread (mapSet base a v) es).lookup k = _
    rw [ih (mapSet base a v) h.2, lookup_mapSet_ne base a k v h.1]

theorem mapSet_keys_subset (m : List (String × α)) (k : String) (v : α) :
    ∀ x ∈ (mapSet m k v).map Prod.fst, x ∈ m.map Prod.fst ∨ x = k := by
  unfold mapSet
  cases hmk : m.lookup k with
  | some w =>
    simp only [hmk, Option.isSome_some, if_true]
    intro x hx
    simp only [List.map_map, List.mem_map] at hx
    obtain ⟨kv, hkv, hx⟩ := hx
    by_cases hk : kv.1 = k
    · right
      simp only [Function.comp, hk, if_true] at hx
      exact hx.symm
    · left
      simp only [Function.comp, hk, if_false] at hx
      exact hx ▸ List.mem_map_of_mem Prod.fst hkv
  | none =>
    simp only [hmk, Option.isSome_none, Bool.false_eq_true, if_false, List.map_append]
    intro x hx
    rcases List.mem_append.mp hx with h1 | h1
    · exact Or.inl h1
    · simp at h1; exact Or.inr h1

theorem lookup_objSpread_mem (base entries : List (String × α)) (kv : String × α)
    (hnd : (entries.map Prod.fst).Nodup) (hmem : kv ∈ entries) :
    (objSpread base entries).lookup kv.1 = some kv.2 := by
  induction entries generalizing base with
  | nil => cases hmem
  | cons e es ih =>
    simp only [List.map_cons, List.nodup_cons] at hnd
    have hstep : objSpread base (e :: es) = objSpread (mapSet base e.1 e.2) es := rfl
    rw [hstep]
    rcases List.mem_cons.mp hmem with h1 | h1
    · subst h1
      rw [lookup_objSpread_of_not_mem _ _ _ hnd.1, lookup_mapSet_self]
    · exact ih (mapSet base e.1 e.2) hnd.2 h1

end MapLemmas

/-! ## Codec lemmas -/

theorem string_mk_data (s : String) : (⟨s.data⟩ : String) = s := rfl

theorem string_data_append (a b : String) : (a ++ b).data = a.data ++ b.data := rfl

theorem takeWhile_all_append (p : Char → Bool) (l : List Char) (y : Char)
    (r : List Char) (hl : ∀ c ∈ l, p c = true) (hy : p y = false) :
    (l ++ y :: r).takeWhile p = l := by
  induction l with
  | nil => simp [List.takeWhile, hy]
  | cons c cs ih =>
    have hc : p c = true := hl c (List.mem_cons_self c cs)
    simp only [List.cons_append, List.takeWhile_cons, hc, if_true]
    rw [ih (fun x hx => hl x (List.mem_cons_of_mem c hx))]

theorem dropWhile_all_append (p : Char → Bool) (l : List Char) (y : Char)
    (r : List Char) (hl : ∀ c ∈ l, p c = true) (hy : p y = false) :
    (l ++ y :: r).dropWhile p = y :: r := by
  induction l with
  | nil => simp [List.dropWhile, hy]
  | cons c cs ih =>
    have hc : p c = true := hl c (List.mem_cons_self c cs)
    simp only [List.cons_append, List.dropWhile_cons, hc, if_true]
    exact ih (fun x hx => hl x (List.mem_cons_of_mem c hx))

/-- The CQ-token regex matches a whole well-formed token at its start. -/
theorem findCQ_token (body rest : List Char) (hne : body ≠ [])
    (hok : ∀ c ∈ body, (decide (c ≠ '[') && decide (c ≠ ']')) = true) :
    findCQ ('[' :: 'C' :: 'Q' :: ':' :: (body ++ ']' :: rest)) =
      some ([], body, rest) := by
  have htk := takeWhile_all_append (fun c => c ≠ '[' && c ≠ ']') body ']' rest hok (by decide)
  have hdr := dropWhile_all_append (fun c => c ≠ '[' && c ≠ ']') body ']' rest hok (by decide)
  simp only [findCQ, matchCQAt, htk, hdr, if_neg hne]

theorem parseStringGo_nil (fuel : Nat) : parseStringGo fuel [] = [] := by
  cases fuel <;> simp [parseStringGo, findCQ]

theorem parseStringGo_succ (fuel : Nat) (cs : List Char) :
    parseStringGo (fuel + 1) cs =
      match findCQ cs with
      | none => if cs = [] then [] else [textSeg cs]
      | some (pre, body, tail) =>
        (if pre = [] then [] else [textSeg pre]) ++
          parseCQBody body :: parseStringGo fuel tail := rfl

theorem overwriteMap_keys {α : Type} (m : List (String × α)) (k : String) (v : α) :
    (m.map (fun kv => if kv.1 = k then (k, v) else kv)).map Prod.fst =
      m.map Prod.fst := by
  induction m with
  | nil => rfl
  | cons kv t ih =>
    by_cases hk : kv.1 = k
    · simp only [List.map_cons, if_pos hk, ih]
      rw [hk]
    · simp only [List.map_cons, if_neg hk, ih]

theorem mapSet_keys_nodup {α : Type} (m : List (String × α)) (k : String) (v : α)
    (h : (m.map Prod.fst).Nodup) : ((mapSet m k v).map Prod.fst).Nodup := by
  unfold mapSet
  cases hmk : m.lookup k with
  | some w =>
    simp only [hmk, Option.isSome_some, if_true]
    rw [overwriteMap_keys]
    exact h
  | none =>
    simp only [hmk, Option.isSome_none, Bool.false_eq_true, if_false]
    have hk : k ∉ m.map Prod.fst := by
      intro hmem
      obtain ⟨kv, hkv, he⟩ := List.mem_map.mp hmem
      exact lookup_none_forall k m hmk kv hkv he
    simp only [List.map_append, List.nodup_append, List.map_cons, List.map_nil]
    refine ⟨h, List.nodup_singleton k, ?_⟩
    intro x hx he
    simp only [List.mem_singleton] at he
    exact hk (he ▸ hx)

theorem parseAttrStep_keys_nodup (data : List (String × String)) (kv : List Char)
    (h : (data.map Prod.fst).Nodup) :
    ((parseAttrStep data kv).map Prod.fst).Nodup := by
  unfold parseAttrStep
  cases hidx : kv.findIdx? (fun c => c = '=') with
  | none => exact h
  | some idx =>
    by_cases h0 : idx = 0
    · simp [h0, h]
    · simp only [if_neg h0]
      exact mapSet_keys_nodup _ _ _ h

theorem parseAttrs_keys_nodup (chunks : List (List Char)) :
    ((parseAttrs chunks).map Prod.fst).Nodup := by
  have haux : ∀ (cs : List (List Char)) (acc : List (String × String)),
      (acc.map Prod.fst).Nodup → ((cs.foldl parseAttrStep acc).map Prod.fst).Nodup := by
    intro cs
    induction cs with
    | nil => intro acc h; exact h
    | cons c t ih =>
      intro acc h
      exact ih (parseAttrStep acc c) (parseAttrStep_keys_nodup acc c h)
  exact haux chunks [] (by simp)

theorem cqAttrData_keys_nodup (body : List Char) :
    ((cqAttrData body).map Prod.fst).Nodup := by
  unfold cqAttrData
  by_cases hj : joinComma (splitOnComma body).tail = []
  · simp [hj]
  · simp only [if_neg hj]
    exact parseAttrs_keys_nodup _

/-! ## Claim theorems: text codec -/

/-- C7: building outbound segments from text "hi", mentions ["123"] and
reply-target "9" yields exactly reply, at, single-space text, body text — and
the plain-text projection of that list is "@123 hi". -/
theorem c7_build_roundtrip :
    buildOutboundSegments ⟨some "hi", some "9", some ["123"]⟩ =
      [⟨"reply", [("id", "9")], none⟩, ⟨"at", [("qq", "123")], none⟩,
       ⟨"text", [("text", " ")], none⟩, ⟨"text", [("text", "hi")], none⟩] ∧
    toPlainText ⟨[⟨"reply", [("id", "9")], none⟩, ⟨"at", [("qq", "123")], none⟩,
       ⟨"text", [("text", " ")], none⟩, ⟨"text", [("text", "hi")], none⟩]⟩ =
      "@123 hi" := by
  exact ⟨by decide, by decide⟩

/-- C8 counterexample: parsing the empty string does *not* yield an empty
segment list (the parser pushes one text segment with empty text). -/
theorem c8_counterexample : (parseInboundCQ (.str "")).segments ≠ [] := by
  decide

/-- C8 (amended): any string in which the token scanner finds no bracketed
markup — including the empty string — parses to exactly one verbatim text
segment; absent (null/undefined) input parses to an empty segment list. -/
theorem c8_no_token_parse :
    (∀ s : String, findCQ s.data = none →
      parseInboundCQ (.str s) = ⟨[⟨"text", [("text", s)], none⟩]⟩) ∧
    parseInboundCQ .nullish = ⟨[]⟩ := by
  refine ⟨fun s h => ?_, rfl⟩
  show (⟨parseStringInput s⟩ : CQParseResult) = _
  unfold parseStringInput
  rw [parseStringGo_succ, h]
  by_cases hd : s.data = []
  · rw [if_pos hd]
    simp [textSeg, string_mk_data]
  · rw [if_neg hd]
    simp [textSeg, string_mk_data]

/-- C8 witness: a concrete token-free string parses to its verbatim text
segment. -/
theorem c8_no_token_parse_witness :
    parseInboundCQ (.str "hello") = ⟨[⟨"text", [("text", "hello")], none⟩]⟩ :=
  c8_no_token_parse.1 "hello" (by decide)

/-- C9 counterexample: the claim quantifies over every unknown-type token, but
for `[CQ:poke,cqType=zzz]` the attribute spread overwrites the dedicated key,
so the original type name "poke" is not retained anywhere in the data map. -/
theorem c9_counterexample :
    (parseInboundCQ (.str "[CQ:poke,cqType=zzz]")).segments =
      [⟨"unknown", [("cqType", "zzz")], some "[CQ:poke,cqType=zzz]"⟩] ∧
    ∀ seg ∈ (parseInboundCQ (.str "[CQ:poke,cqType=zzz]")).segments,
      seg.data.lookup "cqType" ≠ some "poke" := by
  exact ⟨by decide, by decide⟩

/-- C9 (amended): parsing a single bracketed token whose declared type is not
in the known set never fails and yields exactly one `unknown` segment; its
data map contains every parsed key/value attribute of the token, and it
retains the original type name under the dedicated key `cqType` provided no
attribute itself uses that key. -/
theorem c9_unknown_token (body : List Char) (hne : body ≠ [])
    (hok : ∀ c ∈ body, (decide (c ≠ '[') && decide (c ≠ ']')) = true)
    (hunk : isKnownCQType (cqDeclaredType body) = false) :
    (parseInboundCQ (.str ("[CQ:" ++ (⟨body⟩ : String) ++ "]"))).segments =
      [parseCQBody body] ∧
    (parseCQBody body).type = "unknown" ∧
    (∀ kv ∈ cqAttrData body, (parseCQBody body).data.lookup kv.1 = some kv.2) ∧
    ("cqType" ∉ (cqAttrData body).map Prod.fst →
      (parseCQBody body).data.lookup "cqType" = some (cqDeclaredType body)) := by
  have hdata : ("[CQ:" ++ (⟨body⟩ : String) ++ "]").data =
      '[' :: 'C' :: 'Q' :: ':' :: (body ++ ']' :: []) := by
    rw [string_data_append, string_data_append]
    simp
  have hbody : (parseCQBody body).data =
      objSpread [("cqType", cqDeclaredType body)] (cqAttrData body) := by
    unfold parseCQBody
    simp [hunk]
  refine ⟨?_, ?_, ?_, ?_⟩
  · show (parseStringInput _) = _
    unfold parseStringInput
    rw [hdata]
    rw [parseStringGo_succ, findCQ_token body [] hne hok]
    simp [parseStringGo_nil]
  · unfold parseCQBody
    simp [hunk]
  · intro kv hkv
    rw [hbody]
    exact lookup_objSpread_mem _ _ kv (cqAttrData_keys_nodup body) hkv
  · intro hnm
    rw [hbody, lookup_objSpread_of_not_mem _ _ _ hnm, lookup_cons_self]

/-- C9 witness: the spec's own example `[CQ:poke,foo=bar]`. -/
theorem c9_unknown_token_witness :
    (parseInboundCQ (.str "[CQ:poke,foo=bar]")).segments =
      [parseCQBody "poke,foo=bar".data] ∧
    (parseCQBody "poke,foo=bar".data).type = "unknown" :=
  have h := c9_unknown_token "poke,foo=bar".data (by decide) (by decide) (by decide)
  ⟨h.1, h.2.1⟩

/-! ## Decimal-rendering lemmas (echo-token uniqueness) -/

theorem decDigitsGo_append (fuel : Nat) : ∀ (n : Nat) (acc : List Char),
    decDigitsGo fuel n acc = decDigitsGo fuel n [] ++ acc := by
  induction fuel with
  | zero => intro n acc; simp [decDigitsGo]
  | succ f ih =>
    intro n acc
    by_cases h : n < 10
    · simp [decDigitsGo, h]
    · simp only [decDigitsGo, h, if_false]
      rw [ih (n / 10) (decDigitChar (n % 10) :: acc),
        ih (n / 10) [decDigitChar (n % 10)]]
      simp

theorem decDigitsGo_chars (P : Char → Prop) (hP : ∀ d, d < 10 → P (decDigitChar d))
    (fuel : Nat) : ∀ (n : Nat) (acc : List Char), (∀ c ∈ acc, P c) →
    ∀ c ∈ decDigitsGo fuel n acc, P c := by
  induction fuel with
  | zero => intro n acc hacc; exact hacc
  | succ f ih =>
    intro n acc hacc c hc
    by_cases h : n < 10
    · simp only [decDigitsGo, h, if_true] at hc
      rcases List.mem_cons.mp hc with h1 | h1
      · exact h1 ▸ hP n h
      · exact hacc c h1
    · simp only [decDigitsGo, h, if_false] at hc
      refine ih (n / 10) (decDigitChar (n % 10) :: acc) ?_ c hc
      intro x hx
      rcases List.mem_cons.mp hx with h1 | h1
      · exact h1 ▸ hP (n % 10) (Nat.mod_lt n (by omega))
      · exact hacc x h1

theorem natDec_no_underscore (n : Nat) : ∀ c ∈ (natDec n).data, c ≠ '_' := by
  have hP : ∀ d, d < 10 → decDigitChar d ≠ '_' := by decide
  exact decDigitsGo_chars (fun c => c ≠ '_') hP (n + 1) n [] (by simp)

theorem decDigitChar_toNat (d : Nat) (h : d < 10) :
    (decDigitChar d).toNat = 48 + d := by
  interval_cases d <;> decide

theorem decVal_go (fuel : Nat) : ∀ (n : Nat), n < fuel → ∀ (a : Nat),
    List.foldl (fun a c => a * 10 + (c.toNat - 48)) a (decDigitsGo fuel n []) =
      a * 10 ^ (decDigitsGo fuel n []).length + n := by
  induction fuel with
  | zero => intro n h; omega
  | succ f ih =>
    intro n h a
    by_cases h10 : n < 10
    · simp only [decDigitsGo, h10, if_true, List.foldl_cons, List.foldl_nil,
        List.length_singleton, pow_one]
      rw [decDigitChar_toNat n h10]
      omega
    · have hlt : n / 10 < f := by
        have h1 : n / 10 < n := Nat.div_lt_self (by omega) (by omega)
        omega
      have hgo : decDigitsGo (f + 1) n [] =
          decDigitsGo f (n / 10) [] ++ [decDigitChar (n % 10)] := by
        simp only [decDigitsGo, h10, if_false]
        rw [decDigitsGo_append]
      rw [hgo, List.foldl_append, ih (n / 10) hlt a]
      simp only [List.foldl_cons, List.foldl_nil, List.length_append,
        List.length_singleton]
      rw [decDigitChar_toNat (n % 10) (Nat.mod_lt n (by omega))]
      rw [pow_succ]
      have hmm : a * (10 ^ (decDigitsGo f (n / 10) []).length * 10) =
          a * 10 ^ (decDigitsGo f (n / 10) []).length * 10 := by ring
      rw [hmm]
      generalize a * 10 ^ (decDigitsGo f (n / 10) []).length = q
      omega

theorem natDec_data_inj {a b : Nat} (h : (natDec a).data = (natDec b).data) :
    a = b := by
  have ha := decVal_go (a + 1) a (by omega) 0
  have hb := decVal_go (b + 1) b (by omega) 0
  have hva : decVal (natDec a).data = a := by
    simpa [decVal, natDec] using ha
  have hvb : decVal (natDec b).data = b := by
    simpa [decVal, natDec] using hb
  rw [← hva, ← hvb, h]

theorem append_sep_inj (sep : Char) : ∀ (xs ys b d : List Char),
    (∀ c ∈ xs, c ≠ sep) → (∀ c ∈ ys, c ≠ sep) →
    xs ++ sep :: b = ys ++ sep :: d → xs = ys ∧ b = d := by
  intro xs
  induction xs with
  | nil =>
    intro ys b d _ hy h
    cases ys with
    | nil => simpa using h
    | cons y ys' =>
      simp only [List.nil_append, List.cons_append, List.cons.injEq] at h
      exact absurd h.1.symm (hy y (List.mem_cons_self y ys'))
  | cons x xs' ih =>
    intro ys b d hx hy h
    cases ys with
    | nil =>
      simp only [List.nil_append, List.cons_append, List.cons.injEq] at h
      exact absurd h.1 (hx x (List.mem_cons_self x xs'))
    | cons y ys' =>
      simp only [List.cons_append, List.cons.injEq] at h
      have := ih ys' b d (fun c hc => hx c (List.mem_cons_of_mem x hc))
        (fun c hc => hy c (List.mem_cons_of_mem y hc)) h.2
      exact ⟨by rw [h.1, this.1], this.2⟩

theorem generateEcho_inj_seq (now1 now2 s1 s2 : Nat) (h : s1 ≠ s2) :
    generateEcho now1 s1 ≠ generateEcho now2 s2 := by
  intro he
  unfold generateEcho at he
  have hob : ("ob_".data : List Char) = ['o', 'b', '_'] := rfl
  have hus : ("_".data : List Char) = ['_'] := rfl
  have hd := congrArg String.data he
  simp only [string_data_append, hob, hus, List.append_assoc, List.cons_append,
    List.nil_append, List.singleton_append] at hd
  simp only [List.cons.injEq, true_and] at hd
  have hsplit := append_sep_inj '_' (natDec now1).data (natDec now2).data
    (natDec s1).data (natDec s2).data (natDec_no_underscore now1)
    (natDec_no_underscore now2) hd
  exact h (natDec_data_inj hsplit.2)

/-! ## Claim theorems: transport client -/

/-- C1: an inbound frame that classifies as an API response and whose echo
matches a pending request settles exactly that request exactly once (by
resolution with the response envelope), clears its expiry timer, and removes
the entry from the table. -/
theorem c1_response_resolves (c : Client) (p : JVal) (e : String) (pr : Pending)
    (hresp : isApiResponsePacket p = true)
    (hecho : getField p "echo" = some (.str e))
    (hpend : c.pending.lookup e = some pr) :
    (handleInbound c p).2.filter (isSettleFor pr.reqId) =
      [.resolveReq pr.reqId p] ∧
    (handleInbound c p).1.pending.lookup e = none ∧
    (∀ t ∈ (handleInbound c p).1.timers, t.id ≠ pr.timerId) := by
  unfold handleInbound
  rw [if_pos hresp]
  simp only [hecho, hpend]
  refine ⟨?_, ?_, ?_⟩
  · simp [isSettleFor]
  · exact lookup_mapDelete_self c.pending e
  · intro t ht
    have := List.of_mem_filter ht
    simpa [bne_iff_ne] using this

/-- C1 witness: a concrete open client, pending request and matching
response. -/
theorem c1_response_resolves_witness :
    (handleInbound clientW respW).2.filter (isSettleFor 0) =
      [.resolveReq 0 respW] ∧
    (handleInbound clientW respW).1.pending.lookup "e1" = none ∧
    (∀ t ∈ (handleInbound clientW respW).1.timers, t.id ≠ 0) :=
  c1_response_resolves clientW respW "e1" pendW rfl rfl rfl

/-- C2: when the expiry timer of a pending request fires, exactly one timeout
event carrying its action, token and timeout is emitted, the call is rejected
with the timeout error, the entry leaves the table, and a response arriving
afterwards with that same echo settles nothing for that request. -/
theorem c2_timeout_once (c : Client) (t : TimerInfo)
    (hpend : c.pending.lookup t.echo = some ⟨t.reqId, t.action, t.timeoutMs, t.id⟩) :
    (fireRequestTimer c t).2.filter isTimeoutEff =
      [.emitTimeout t.action t.echo t.timeoutMs] ∧
    (fireRequestTimer c t).2.filter (isSettleFor t.reqId) =
      [.rejectReq t.reqId (timeoutErrMsg t.action t.timeoutMs)] ∧
    (fireRequestTimer c t).1.pending.lookup t.echo = none ∧
    (∀ p : JVal, getField p "echo" = some (.str t.echo) →
      (handleInbound (fireRequestTimer c t).1 p).2.filter (isSettleFor t.reqId) = []) := by
  refine ⟨by simp [fireRequestTimer, isTimeoutEff, isSettleFor],
    by simp [fireRequestTimer, isTimeoutEff, isSettleFor],
    lookup_mapDelete_self c.pending t.echo, ?_⟩
  intro p hp
  unfold handleInbound
  by_cases hA : isApiResponsePacket p
  · rw [if_pos hA]
    simp only [hp]
    have hnone : (fireRequestTimer c t).1.pending.lookup t.echo = none :=
      lookup_mapDelete_self c.pending t.echo
    simp only [hnone]
    simp [isSettleFor]
  · rw [if_neg hA]
    by_cases hE : isEventPacket p
    · rw [if_pos hE]
      split <;> simp [isSettleFor]
    · rw [if_neg hE]
      simp [isSettleFor]

/-- C2 witness: the fixture client's timer fires; a late response with the
same echo settles nothing. -/
theorem c2_timeout_once_witness :
    (fireRequestTimer clientW timerW).2.filter isTimeoutEff =
      [.emitTimeout "send_private_msg" "e1" 15000] ∧
    (fireRequestTimer clientW timerW).2.filter (isSettleFor 0) =
      [.rejectReq 0 (timeoutErrMsg "send_private_msg" 15000)] ∧
    (fireRequestTimer clientW timerW).1.pending.lookup "e1" = none ∧
    (∀ p : JVal, getField p "echo" = some (.str "e1") →
      (handleInbound (fireRequestTimer clientW timerW).1 p).2.filter
        (isSettleFor 0) = []) :=
  c2_timeout_once clientW timerW rfl

/-- C3 counterexample: the claim's registration half quantifies over every
client whose *state* is `open`, but the guard also requires the socket's
readyState to be OPEN.  A client in the heartbeat force-close window (state
still `open`, socket readyState CLOSING) makes `callAction` throw the
not-connected error and register nothing — no pending entry appears under the
token the generator would have produced — instead of sending a frame as the
claim requires. -/
theorem c3_counterexample :
    ({ clientW with ws := some WsReady.closing } : Client).state =
      ConnState.open ∧
    callAction { clientW with ws := some WsReady.closing } "send_private_msg"
        none none none 0 true =
      ({ clientW with ws := some WsReady.closing },
       [.throwErr "WebSocket is not connected"]) ∧
    (callAction { clientW with ws := some WsReady.closing } "send_private_msg"
        none none none 0 true).1.pending.lookup
      (generateEcho 0 (clientW.echoSeq + 1)) = none := by
  refine ⟨rfl, ?_, by decide⟩
  unfold callAction
  rw [if_neg (by decide)]

/-- C3 (amended): calling an action while not connected — no socket, state
not `open`, or the socket's readyState not OPEN (reachable with state still
`open` during a heartbeat force-close or a remote close handshake) — throws
immediately and leaves the client, in particular the pending table,
untouched; when the state is `open` *and* the socket's readyState is OPEN,
with no caller-supplied echo, the call registers a pending entry under the
freshly generated token with the clamped timeout (the configured default when
none is given), arms its expiry timer, and sends exactly one
`{action, params, echo}` frame. -/
theorem c3_callAction_spec :
    (∀ (c : Client) (action : String) (params : Option JVal) (topt : Option Int)
        (eopt : Option String) (now : Nat) (ok : Bool),
      ¬(c.ws = some WsReady.open ∧ c.state = ConnState.open) →
      callAction c action params topt eopt now ok =
        (c, [.throwErr "WebSocket is not connected"])) ∧
    (∀ (c : Client) (action : String) (params : Option JVal) (topt : Option Int)
        (now : Nat),
      c.ws = some WsReady.open → c.state = ConnState.open →
      (callAction c action params topt none now true).1.pending.lookup
          (generateEcho now (c.echoSeq + 1)) =
        some ⟨c.nextReqId, action,
          clampMs (topt.getD (Int.ofNat c.opts.requestTimeoutMs))
            c.opts.requestTimeoutMs,
          c.nextTimerId⟩ ∧
      (topt = none →
        clampMs (topt.getD (Int.ofNat c.opts.requestTimeoutMs))
            c.opts.requestTimeoutMs = c.opts.requestTimeoutMs) ∧
      (⟨c.nextTimerId, generateEcho now (c.echoSeq + 1), c.nextReqId, action,
          clampMs (topt.getD (Int.ofNat c.opts.requestTimeoutMs))
            c.opts.requestTimeoutMs⟩ : TimerInfo)
        ∈ (callAction c action params topt none now true).1.timers ∧
      (callAction c action params topt none now true).2.filter isSendEff =
        [.sendFrame ⟨action, params, generateEcho now (c.echoSeq + 1)⟩] ∧
      (callAction c action params topt none now true).1.echoSeq = c.echoSeq + 1) := by
  constructor
  · intro c action params topt eopt now ok h
    unfold callAction
    rw [if_neg h]
  · intro c action params topt now hw hs
    unfold callAction
    rw [if_pos ⟨hw, hs⟩]
    simp only [if_pos rfl]
    refine ⟨lookup_mapSet_self _ _ _, ?_, ?_, ?_, rfl⟩
    · intro ht
      subst ht
      simp [clampMs]
    · exact List.mem_append_right _ (List.mem_singleton_self _)
    · simp [isSendEff]

/-- C3 witness: a never-connected client throws; the fixture open client
registers the generated token and sends one frame. -/
theorem c3_callAction_spec_witness :
    callAction (initClient optsW) "send_private_msg" none none none 0 true =
      (initClient optsW, [.throwErr "WebSocket is not connected"]) ∧
    (callAction clientW "send_group_msg" none none none 7 true).1.pending.lookup
        (generateEcho 7 1) = some ⟨1, "send_group_msg", 15000, 1⟩ ∧
    (callAction clientW "send_group_msg" none none none 7 true).2.filter isSendEff =
      [.sendFrame ⟨"send_group_msg", none, generateEcho 7 1⟩] := by
  have hA := c3_callAction_spec.1 (initClient optsW) "send_private_msg" none none
    none 0 true (by decide)
  have hB := c3_callAction_spec.2 clientW "send_group_msg" none none 7 rfl rfl
  exact ⟨hA, hB.1, hB.2.2.2.1⟩

theorem filter_throw_rejects (l : List (String × Pending)) (msg : String) :
    (l.map (fun kv => Effect.rejectReq kv.2.reqId msg)).filter isThrowEff = [] := by
  induction l with
  | nil => rfl
  | cons kv t ih => simp [isThrowEff, ih]

set_option maxHeartbeats 1600000 in
/-- What one `disconnect` call guarantees, for an arbitrary starting client:
it ends `closed`, throws nothing, marks the close deliberate, cancels the
reconnect timer and heartbeat monitor, empties the pending table, and rejects
every request that was pending when it was called. -/
theorem disconnect_single (c : Client) (code : Nat) (reason : String)
    (jitter : Nat) (closeThrew : Bool) :
    (disconnect c code reason jitter closeThrew).1.state = ConnState.closed ∧
    (disconnect c code reason jitter closeThrew).2.filter isThrowEff = [] ∧
    (disconnect c code reason jitter closeThrew).1.manuallyClosed = true ∧
    (disconnect c code reason jitter closeThrew).1.reconnectTimer = none ∧
    (disconnect c code reason jitter closeThrew).1.heartbeatTimer = false ∧
    (disconnect c code reason jitter closeThrew).1.pending = [] ∧
    (∀ kv ∈ c.pending, ∃ msg,
      Effect.rejectReq kv.2.reqId msg ∈ (disconnect c code reason jitter closeThrew).2) := by
  cases hws : c.ws with
  | none =>
    refine ⟨?_, ?_, ?_, ?_, ?_, ?_, fun kv hkv => ?_⟩ <;>
      simp [disconnect, hws, rejectAllPending, handleSocketClose,
        scheduleReconnect, isThrowEff, filter_throw_rejects]
    exact ⟨"Disconnected", kv.1, kv.2, hkv, rfl, rfl⟩
  | some w =>
    cases w <;> cases closeThrew <;>
      (refine ⟨?_, ?_, ?_, ?_, ?_, ?_, fun kv hkv => ?_⟩ <;>
        simp [disconnect, hws, rejectAllPending, handleSocketClose,
          scheduleReconnect, isThrowEff, filter_throw_rejects]) <;>
      first
        | exact ⟨"Disconnected", kv.1, kv.2, hkv, rfl, rfl⟩
        | exact ⟨"WebSocket closed (" ++ natDec code ++ " " ++ reason ++ ")",
            kv.1, kv.2, hkv, rfl, rfl⟩

/-- C4: `disconnect` always completes without throwing (also twice in a row,
also when never connected), leaves the state `closed`, marks the close as
deliberate (suppressing auto-reconnect), cancels any scheduled reconnect
timer and the heartbeat monitor, empties the pending table, and rejects every
request that was pending when it was called. -/
theorem c4_disconnect_idempotent (c : Client) (code : Nat) (reason : String)
    (jitter : Nat) (closeThrew : Bool) :
    (disconnect c code reason jitter closeThrew).1.state = ConnState.closed ∧
    (disconnect (disconnect c code reason jitter closeThrew).1 code reason jitter
        closeThrew).1.state = ConnState.closed ∧
    (disconnect c code reason jitter closeThrew).2.filter isThrowEff = [] ∧
    (disconnect (disconnect c code reason jitter closeThrew).1 code reason jitter
        closeThrew).2.filter isThrowEff = [] ∧
    (disconnect c code reason jitter closeThrew).1.manuallyClosed = true ∧
    (disconnect c code reason jitter closeThrew).1.reconnectTimer = none ∧
    (disconnect c code reason jitter closeThrew).1.heartbeatTimer = false ∧
    (disconnect c code reason jitter closeThrew).1.pending = [] ∧
    (∀ kv ∈ c.pending, ∃ msg,
      Effect.rejectReq kv.2.reqId msg ∈ (disconnect c code reason jitter closeThrew).2) := by
  have h1 := disconnect_single c code reason jitter closeThrew
  have h2 := disconnect_single (disconnect c code reason jitter closeThrew).1
    code reason jitter closeThrew
  exact ⟨h1.1, h2.1, h1.2.1, h2.2.1, h1.2.2.1, h1.2.2.2.1, h1.2.2.2.2.1,
    h1.2.2.2.2.2.1, h1.2.2.2.2.2.2⟩

/-- C4 witness: the fixture client disconnect ends closed and rejects its
outstanding request. -/
theorem c4_disconnect_idempotent_witness :
    (disconnect clientW 1000 "manual disconnect" 0 false).1.state =
      ConnState.closed ∧
    (∃ msg, Effect.rejectReq 0 msg ∈
      (disconnect clientW 1000 "manual disconnect" 0 false).2) := by
  have h := c4_disconnect_idempotent clientW 1000 "manual disconnect" 0 false
  exact ⟨h.1, h.2.2.2.2.2.2.2.2 ("e1", pendW) (by decide)⟩

/-- C5: with no reconnect timer armed, scheduling attempt `n =
reconnectAttempt + 1` uses the delay `min(maxDelay, baseDelay * 2^(n-1))`
plus the bounded non-negative jitter; once `n` would exceed the attempt cap,
exactly one terminal transport-error is emitted and no timer is armed. -/
theorem c5_reconnect_backoff (c : Client) (reason : String) (jitter : Nat)
    (htimer : c.reconnectTimer = none) (hj : jitter < 300) :
    (c.reconnectAttempt + 1 ≤ c.opts.reconnectMaxAttempts →
      scheduleReconnect c reason jitter =
        ({ c with
            state := ConnState.reconnecting,
            reconnectTimer := some (c.reconnectAttempt + 1) },
         [.emitReconnecting (c.reconnectAttempt + 1)
            (min c.opts.reconnectMaxDelayMs
                (c.opts.reconnectBaseDelayMs * 2 ^ c.reconnectAttempt) + jitter)
            reason]) ∧
      min c.opts.reconnectMaxDelayMs
          (c.opts.reconnectBaseDelayMs * 2 ^ c.reconnectAttempt) ≤
        min c.opts.reconnectMaxDelayMs
          (c.opts.reconnectBaseDelayMs * 2 ^ c.reconnectAttempt) + jitter ∧
      min c.opts.reconnectMaxDelayMs
          (c.opts.reconnectBaseDelayMs * 2 ^ c.reconnectAttempt) + jitter <
        min c.opts.reconnectMaxDelayMs
          (c.opts.reconnectBaseDelayMs * 2 ^ c.reconnectAttempt) + 300) ∧
    (c.opts.reconnectMaxAttempts < c.reconnectAttempt + 1 →
      scheduleReconnect c reason jitter =
        (c, [.emitError (exhaustedMsg c.opts.reconnectMaxAttempts reason)]) ∧
      (scheduleReconnect c reason jitter).2.filter isErrorEff =
        [.emitError (exhaustedMsg c.opts.reconnectMaxAttempts reason)] ∧
      (scheduleReconnect c reason jitter).1.reconnectTimer = none) := by
  constructor
  · intro hle
    refine ⟨?_, Nat.le_add_right _ _, by omega⟩
    unfold scheduleReconnect
    rw [htimer]
    simp only [Option.isSome_none, Bool.false_eq_true, if_false]
    rw [if_neg (by omega)]
    simp
  · intro hlt
    have heq : scheduleReconnect c reason jitter =
        (c, [.emitError (exhaustedMsg c.opts.reconnectMaxAttempts reason)]) := by
      unfold scheduleReconnect
      rw [htimer]
      simp only [Option.isSome_none, Bool.false_eq_true, if_false]
      rw [if_pos hlt]
    refine ⟨heq, ?_, ?_⟩
    · rw [heq]; simp [isErrorEff]
    · rw [heq]; exact htimer

/-- C5 witness: the fixture client (attempt counter 0, cap 5) schedules
attempt 1 with delay `min(30000, 1000 * 2^0) + 7`; a client whose counter is
at the cap emits the terminal error and arms nothing. -/
theorem c5_reconnect_backoff_witness :
    scheduleReconnect clientW "close:1006" 7 =
      ({ clientW with state := ConnState.reconnecting, reconnectTimer := some 1 },
       [.emitReconnecting 1 (min 30000 (1000 * 2 ^ 0) + 7) "close:1006"]) ∧
    scheduleReconnect { clientW with reconnectAttempt := 5 } "close:1006" 7 =
      ({ clientW with reconnectAttempt := 5 },
       [.emitError (exhaustedMsg 5 "close:1006")]) := by
  constructor
  · exact ((c5_reconnect_backoff clientW "close:1006" 7 rfl (by omega)).1
      (by decide)).1
  · exact ((c5_reconnect_backoff { clientW with reconnectAttempt := 5 }
      "close:1006" 7 rfl (by omega)).2 (by decide)).1

/-- C6: the reconnect attempt counter is reset to 0 exactly by the socket
open handler: every other step preserves it, the reconnect timer only ever
arms the value `reconnectAttempt + 1`, and the timer callback commits that
value when the attempt merely starts.  Consequently, after a successful open,
the next unexpected close schedules backoff at attempt 1 with delay
`min(maxDelay, baseDelay * 2^0) + jitter`. -/
theorem c6_attempt_counter_reset :
    (∀ (c : Client) (now : Nat), (onSocketOpen c now).1.reconnectAttempt = 0) ∧
    (∀ (c : Client) (p : JVal),
      (handleInbound c p).1.reconnectAttempt = c.reconnectAttempt) ∧
    (∀ (c : Client) (t : TimerInfo),
      (fireRequestTimer c t).1.reconnectAttempt = c.reconnectAttempt) ∧
    (∀ (c : Client) (action : String) (params : Option JVal) (topt : Option Int)
        (eopt : Option String) (now : Nat) (ok : Bool),
      (callAction c action params topt eopt now ok).1.reconnectAttempt =
        c.reconnectAttempt) ∧
    (∀ (c : Client) (code : Nat) (reason : String) (jitter : Nat) (closeThrew : Bool),
      (disconnect c code reason jitter closeThrew).1.reconnectAttempt =
        c.reconnectAttempt) ∧
    (∀ (c : Client) (reason : String) (jitter : Nat),
      (scheduleReconnect c reason jitter).1.reconnectAttempt = c.reconnectAttempt) ∧
    (∀ (c : Client) (code : Nat) (reason : String) (jitter : Nat),
      (handleSocketClose c code reason jitter).1.reconnectAttempt =
        c.reconnectAttempt) ∧
    (∀ c : Client, (connectStart c).reconnectAttempt = c.reconnectAttempt) ∧
    (∀ (c : Client) (reason : String) (jitter : Nat),
      (scheduleReconnect c reason jitter).1.reconnectTimer = c.reconnectTimer ∨
      (scheduleReconnect c reason jitter).1.reconnectTimer =
        some (c.reconnectAttempt + 1)) ∧
    (∀ (c : Client) (n : Nat), c.reconnectTimer = some n →
      (reconnectTimerFire c).reconnectAttempt = n) ∧
    (∀ (c : Client) (now code : Nat) (reason : String) (jitter : Nat),
      c.manuallyClosed = false → c.opts.reconnect = true →
      c.reconnectTimer = none → 1 ≤ c.opts.reconnectMaxAttempts →
      Effect.emitReconnecting 1
          (min c.opts.reconnectMaxDelayMs (c.opts.reconnectBaseDelayMs * 2 ^ 0)
            + jitter)
          ("close:" ++ natDec code)
        ∈ (handleSocketClose (onSocketOpen c now).1 code reason jitter).2) := by
  refine ⟨fun c now => rfl, ?_, fun c t => rfl, ?_, ?_, ?_, ?_, fun c => rfl,
    ?_, ?_, ?_⟩
  · intro c p
    unfold handleInbound
    repeat' split
    all_goals rfl
  · intro c action params topt eopt now ok
    unfold callAction
    repeat' split
    all_goals rfl
  · intro c code reason jitter closeThrew
    cases hws : c.ws with
    | none => simp [disconnect, hws, rejectAllPending]
    | some w =>
      cases w <;> cases closeThrew <;>
        simp [disconnect, hws, rejectAllPending, handleSocketClose,
          scheduleReconnect]
  · intro c reason jitter
    by_cases ht : c.reconnectTimer.isSome = true
    · simp [scheduleReconnect, ht]
    · by_cases hm : c.opts.reconnectMaxAttempts < c.reconnectAttempt + 1
      · simp [scheduleReconnect, ht, hm]
      · simp [scheduleReconnect, ht, hm]
  · intro c code reason jitter
    by_cases hman : c.manuallyClosed = true
    · simp [handleSocketClose, rejectAllPending, hman]
    · by_cases hr : c.opts.reconnect = true
      · by_cases ht : c.reconnectTimer.isSome = true
        · simp [handleSocketClose, rejectAllPending, scheduleReconnect, hman, hr, ht]
        · by_cases hmax : c.opts.reconnectMaxAttempts < c.reconnectAttempt + 1
          · simp [handleSocketClose, rejectAllPending, scheduleReconnect, hman,
              hr, ht, hmax]
          · simp [handleSocketClose, rejectAllPending, scheduleReconnect, hman,
              hr, ht, hmax]
      · simp [handleSocketClose, rejectAllPending, hman, hr]
  · intro c reason jitter
    by_cases ht : c.reconnectTimer.isSome = true
    · left; simp [scheduleReconnect, ht]
    · by_cases hm : c.opts.reconnectMaxAttempts < c.reconnectAttempt + 1
      · left; simp [scheduleReconnect, ht, hm]
      · right; simp [scheduleReconnect, ht, hm]
  · intro c n hn
    unfold reconnectTimerFire
    rw [hn]
    rfl
  · intro c now code reason jitter hman hrec htimer hcap
    unfold handleSocketClose
    simp only [onSocketOpen, startHeartbeatMonitor, hman, hrec, htimer,
      rejectAllPending, scheduleReconnect, Option.isSome_none,
      Bool.false_eq_true, if_false, Bool.not_true]
    rw [if_neg (by omega : ¬ c.opts.reconnectMaxAttempts < 0 + 1)]
    simp

/-- C6 witness: the fixture client opens (counter 0), then an unexpected
close schedules attempt 1 with base delay plus jitter. -/
theorem c6_attempt_counter_reset_witness :
    (onSocketOpen clientW 5).1.reconnectAttempt = 0 ∧
    Effect.emitReconnecting 1 (min 30000 (1000 * 2 ^ 0) + 7) ("close:" ++ natDec 1006)
      ∈ (handleSocketClose (onSocketOpen clientW 5).1 1006 "abnormal" 7).2 := by
  have h := c6_attempt_counter_reset
  exact ⟨h.1 clientW 5,
    h.2.2.2.2.2.2.2.2.2.2 clientW 5 1006 "abnormal" 7 rfl rfl rfl (by decide)⟩

/-- C10 (implicit): a caller-supplied echo that collides with a pending token
silently overwrites that entry — the old request is neither resolved nor
rejected by that call, every previously armed timer (the old entry's timer in
particular) stays armed, and firing the old timer still rejects the old
promise — while tokens from the internal generator are pairwise distinct over
the client's lifetime because the sequence counter is strictly increasing and
the rendered token determines it. -/
theorem c10_echo_collision :
    (∀ (c : Client) (action : String) (params : Option JVal) (topt : Option Int)
        (e : String) (old : Pending) (now : Nat),
      c.ws = some WsReady.open → c.state = ConnState.open →
      c.pending.lookup e = some old →
      (callAction c action params topt (some e) now true).1.pending.lookup e =
        some ⟨c.nextReqId, action,
          clampMs (topt.getD (Int.ofNat c.opts.requestTimeoutMs))
            c.opts.requestTimeoutMs, c.nextTimerId⟩ ∧
      (callAction c action params topt (some e) now true).2.filter
        (isSettleFor old.reqId) = [] ∧
      (∀ t ∈ c.timers,
        t ∈ (callAction c action params topt (some e) now true).1.timers) ∧
      Effect.rejectReq old.reqId (timeoutErrMsg old.action old.timeoutMs) ∈
        (fireRequestTimer (callAction c action params topt (some e) now true).1
          ⟨old.timerId, e, old.reqId, old.action, old.timeoutMs⟩).2) ∧
    (∀ now1 now2 s1 s2 : Nat, s1 ≠ s2 →
      generateEcho now1 s1 ≠ generateEcho now2 s2) := by
  constructor
  · intro c action params topt e old now hw hs hpend
    unfold callAction
    rw [if_pos ⟨hw, hs⟩]
    simp only [if_pos rfl]
    refine ⟨lookup_mapSet_self _ _ _, by simp [isSettleFor], ?_, ?_⟩
    · intro t ht
      exact List.mem_append_left _ ht
    · simp [fireRequestTimer]
  · exact generateEcho_inj_seq

/-- C10 witness: overwriting the fixture client's pending token "e1"; two
generated tokens with different sequence numbers differ. -/
theorem c10_echo_collision_witness :
    (callAction clientW "get_status" none none (some "e1") 9 true).1.pending.lookup
      "e1" = some ⟨1, "get_status", 15000, 1⟩ ∧
    (callAction clientW "get_status" none none (some "e1") 9 true).2.filter
      (isSettleFor 0) = [] ∧
    generateEcho 3 1 ≠ generateEcho 4 2 := by
  have h := c10_echo_collision
  have hA := h.1 clientW "get_status" none none "e1" pendW 9 rfl rfl rfl
  exact ⟨hA.1, hA.2.1, h.2 3 4 1 2 (by omega)⟩


end Pinguclaw
